import Mathlib

/-!
Shallow embedding of `src/part10/multi-server.c`.

The repository file contains two variants of the same HTTP/1.0 static-file
server, separated by a document marker:
* a fork-per-connection variant (first half of the file; statistics counters
  live in an `mmap`-shared `struct reqstat` guarded by a POSIX semaphore), and
* a thread-pool variant (second half; a mutex/condvar blocking queue hands
  accepted sockets to `N_THREADS` worker threads).

Strings are modelled at the character level (`List Char`), machine `int`s as
`Int` (the counters only ever grow by one per request, far from overflow),
sockets as `Int` payloads, and the filesystem as an abstract record of the
three observations the code makes of it (`stat`-is-directory, `fopen`
success / file bytes, `ls` output).  Everything the per-connection code writes
to the client socket is collected into one output `String`.
-/

namespace MultiSrv

/-- Character class of the `strtok` separator set `"\t \r\n"`. -/
def isSep (c : Char) : Bool := c == '\t' || c == ' ' || c == '\r' || c == '\n'

/-- Worker for `tokenize`: walks the characters, accumulating the current
token in reverse; separators flush the accumulator. -/
def tokAux : List Char → List Char → List String
  | [], acc => if acc.isEmpty then [] else [String.mk acc.reverse]
  | c :: rest, acc =>
    if isSep c then
      if acc.isEmpty then tokAux rest [] else String.mk acc.reverse :: tokAux rest []
    else tokAux rest (c :: acc)

/-- The successive `strtok(requestLine, "\t \r\n")` calls of the server:
the maximal runs of non-separator characters, in order. -/
def tokenize (s : String) : List String := tokAux s.data []

/-- Whether `p` is an initial segment of `l` (character-wise). -/
def startsWithList : List Char → List Char → Bool
  | [], _ => true
  | _ :: _, [] => false
  | p :: ps, c :: cs => p == c && startsWithList ps cs

/-- C `strstr(hay, pat) != NULL`: `pat` occurs contiguously inside `hay`. -/
def hasSubList (pat : List Char) : List Char → Bool
  | [] => startsWithList pat []
  | c :: rest => startsWithList pat (c :: rest) || hasSubList pat rest

/-- The check `strcmp(requestURI + (len-3), "/..") == 0` (for `len >= 3`):
`l` ends with the characters `p`. -/
def endsWithList (p l : List Char) : Bool := startsWithList p.reverse l.reverse

theorem startsWithList_length_le (p : List Char) :
    ∀ l : List Char, startsWithList p l = true → p.length ≤ l.length := by
  induction p with
  | nil => intro l _; simp
  | cons a as ih =>
    intro l h
    cases l with
    | nil => simp [startsWithList] at h
    | cons b bs =>
      simp only [startsWithList, Bool.and_eq_true] at h
      simpa using ih bs h.2

theorem hasSubList_length_le (pat : List Char) :
    ∀ l : List Char, hasSubList pat l = true → pat.length ≤ l.length := by
  intro l
  induction l with
  | nil => intro h; exact startsWithList_length_le pat [] h
  | cons c cs ih =>
    intro h
    simp only [hasSubList, Bool.or_eq_true] at h
    rcases h with h | h
    · exact startsWithList_length_le pat (c :: cs) h
    · exact le_trans (ih h) (by simp)

theorem endsWithList_length_le (p l : List Char) (h : endsWithList p l = true) :
    p.length ≤ l.length := by
  have := startsWithList_length_le p.reverse l.reverse h
  simpa using this

/-!  ## StatusRegistry: the `HTTP_StatusCodes` table (identical in both
variants).  The C sentinel entry `{ 0, NULL }` is modelled with the empty
string standing for the `NULL` reason pointer (it is never returned:
the lookup loop stops as soon as a non-positive status is reached). -/

def HTTP_StatusCodes : List (Int × String) :=
  [ (200, "OK"),
    (201, "Created"),
    (202, "Accepted"),
    (204, "No Content"),
    (301, "Moved Permanently"),
    (302, "Moved Temporarily"),
    (304, "Not Modified"),
    (400, "Bad Request"),
    (401, "Unauthorized"),
    (403, "Forbidden"),
    (404, "Not Found"),
    (500, "Internal Server Error"),
    (501, "Not Implemented"),
    (502, "Bad Gateway"),
    (503, "Service Unavailable"),
    (0, "") ]

/-- The scan loop of `getReasonPhrase`: walk the table while the current
entry's status is positive; return the reason on a match, and
`"Unknown Status Code"` once the sentinel (or, hypothetically, the end of
the list) is reached. -/
def getRPAux : List (Int × String) → Int → String
  | [], _ => "Unknown Status Code"
  | (s, r) :: rest, code =>
    if 0 < s then
      if s = code then r else getRPAux rest code
    else "Unknown Status Code"

/-- `getReasonPhrase` from the source (identical in both variants). -/
def getReasonPhrase (statusCode : Int) : String :=
  getRPAux HTTP_StatusCodes statusCode

theorem mem_of_takeWhile {α : Type _} (p : α → Bool) :
    ∀ (l : List α) (x : α), x ∈ l.takeWhile p → x ∈ l := by
  intro l
  induction l with
  | nil => intro x h; simp at h
  | cons a as ih =>
    intro x h
    rw [List.takeWhile_cons] at h
    by_cases hp : p a = true
    · rw [if_pos hp] at h
      rcases List.mem_cons.mp h with h | h
      · exact h ▸ List.mem_cons_self a as
      · exact List.mem_cons_of_mem a (ih x h)
    · rw [if_neg hp] at h
      simp at h

theorem getRPAux_eq_find (l : List (Int × String)) (code : Int) :
    getRPAux l code =
      ((l.takeWhile fun e => decide (0 < e.1)).find? fun e => decide (e.1 = code)
        ).elim "Unknown Status Code" Prod.snd := by
  induction l with
  | nil => simp [getRPAux, List.takeWhile]
  | cons e rest ih =>
    obtain ⟨s, r⟩ := e
    by_cases hs : 0 < s
    · by_cases hc : s = code
      · subst hc
        simp [getRPAux, List.takeWhile, List.find?, hs]
      · simp [getRPAux, List.takeWhile, List.find?, hs, hc, ih]
    · simp [getRPAux, List.takeWhile, hs]

/-!  ## ConnectionQueue (thread-pool variant): `struct queue` with its
`first`/`last`/`length` fields, `queue_init`, `queue_put`, `queue_get`.

The chain of `struct message` nodes reachable from `first` is modelled as the
list of their `sock` payloads, in link order; `last`, when not `NULL`, points
at the final node of that chain (which is how the code uses it), so the only
extra observable state is whether `last` is `NULL` (`lastNil`).  `first` is
`NULL` exactly when the chain is empty. -/

structure CQueue where
  chain : List Int
  lastNil : Bool
  length : Nat
  deriving DecidableEq, Repr

/-- `queue_init`: empty chain, both pointers `NULL`, length `0`. -/
def queue_init : CQueue := { chain := [], lastNil := true, length := 0 }

/-- `queue_put`: allocate a node for `sock`; if `length == 0` make it the
first node, otherwise link it after `last`; point `last` at it; bump
`length`. -/
def queue_put (q : CQueue) (sock : Int) : CQueue :=
  { chain := if q.length = 0 then [sock] else q.chain ++ [sock],
    lastNil := false,
    length := q.length + 1 }

/-- `queue_get`: block (here: `none`) while `length == 0`; otherwise unlink
the first node, return its `sock`, set `last` to `NULL` when the queue had a
single element, and decrement `length`.  The inner `none` is the
`NULL`-dereference of `first` that cannot happen in invariant states. -/
def queue_get (q : CQueue) : Option (Int × CQueue) :=
  if q.length = 0 then none
  else
    match q.chain with
    | [] => none
    | sock :: rest =>
      some (sock,
        { chain := rest,
          lastNil := if q.length = 1 then true else q.lastNil,
          length := q.length - 1 })

/-- The structural queue invariant: `length` counts the nodes reachable from
`first`, and `last` is `NULL` exactly when the chain is empty. -/
def queueInv (q : CQueue) : Prop :=
  q.chain.length = q.length ∧ (q.lastNil = true ↔ q.chain = [])

instance (q : CQueue) : Decidable (queueInv q) := by
  unfold queueInv; infer_instance

theorem queueInv_init : queueInv queue_init := by
  constructor <;> simp [queue_init]

theorem queue_put_chain (q : CQueue) (s : Int) (h : queueInv q) :
    (queue_put q s).chain = q.chain ++ [s] := by
  obtain ⟨hlen, _⟩ := h
  unfold queue_put
  by_cases h0 : q.length = 0
  · have : q.chain = [] := List.length_eq_zero.mp (hlen.trans h0)
    simp [h0, this]
  · simp [h0]

theorem queueInv_put (q : CQueue) (s : Int) (h : queueInv q) :
    queueInv (queue_put q s) := by
  obtain ⟨hlen, hnil⟩ := h
  refine ⟨?_, ?_⟩
  · rw [queue_put_chain q s ⟨hlen, hnil⟩]
    simp [queue_put, hlen]
  · by_cases h0 : q.length = 0 <;> simp [queue_put, h0]

theorem queue_get_spec (q : CQueue) (s : Int) (q' : CQueue)
    (h : queueInv q) (hg : queue_get q = some (s, q')) :
    queueInv q' ∧ q.chain = s :: q'.chain := by
  obtain ⟨hlen, hnil⟩ := h
  unfold queue_get at hg
  by_cases h0 : q.length = 0
  · simp [h0] at hg
  · rw [if_neg h0] at hg
    cases hchain : q.chain with
    | nil =>
      rw [hchain] at hg; simp at hg
    | cons a rest =>
      rw [hchain] at hg
      simp only [Option.some.injEq, Prod.mk.injEq] at hg
      obtain ⟨hs, hq'⟩ := hg
      subst hs
      subst hq'
      refine ⟨⟨?_, ?_⟩, by simp [hchain]⟩
      · rw [hchain] at hlen
        simp at hlen
        simp only []
        omega
      · simp only []
        by_cases h1 : q.length = 1
        · have : rest.length = 0 := by
            rw [hchain] at hlen; simp at hlen; omega
          simp [h1, List.length_eq_zero.mp this]
        · have hrest : rest ≠ [] := by
            intro hr
            rw [hchain, hr] at hlen
            simp at hlen
            omega
          have hq : q.lastNil = false := by
            cases hq : q.lastNil
            · rfl
            · exact absurd (hnil.mp hq) (by simp [hchain])
          simp [h1, hq, hrest]

/-!  ### Sequential traces over the queue

The acceptor thread calls `queue_put`, worker threads call `queue_get`; both
run under `q->mutex`, so every execution is some interleaving—i.e. a
sequence—of complete `queue_put`/`queue_get` critical sections.  A trace is
such a sequence; `runQueue` executes it, failing (`none`) if a `queue_get`
would block forever. -/

inductive QOp where
  | put (sock : Int)
  | get
  deriving DecidableEq, Repr

def runQueue : CQueue → List QOp → Option (CQueue × List Int)
  | q, [] => some (q, [])
  | q, QOp.put s :: ops => runQueue (queue_put q s) ops
  | q, QOp.get :: ops =>
    match queue_get q with
    | none => none
    | some (s, q') =>
      match runQueue q' ops with
      | none => none
      | some (qf, outs) => some (qf, s :: outs)

/-- The sockets handed to `queue_put` along a trace, in order. -/
def putsOf : List QOp → List Int
  | [] => []
  | QOp.put s :: ops => s :: putsOf ops
  | QOp.get :: ops => putsOf ops

theorem runQueue_spec (ops : List QOp) :
    ∀ (q qf : CQueue) (outs : List Int), queueInv q →
      runQueue q ops = some (qf, outs) →
      queueInv qf ∧ outs ++ qf.chain = q.chain ++ putsOf ops := by
  induction ops with
  | nil =>
    intro q qf outs hq h
    simp only [runQueue, Option.some.injEq, Prod.mk.injEq] at h
    obtain ⟨h1, h2⟩ := h
    subst h1; subst h2
    simp [putsOf, hq]
  | cons op ops ih =>
    intro q qf outs hq h
    cases op with
    | put s =>
      simp only [runQueue] at h
      obtain ⟨hinv, heq⟩ := ih (queue_put q s) qf outs (queueInv_put q s hq) h
      refine ⟨hinv, ?_⟩
      rw [heq, queue_put_chain q s hq, putsOf]
      simp
    | get =>
      simp only [runQueue] at h
      cases hg : queue_get q with
      | none => rw [hg] at h; simp at h
      | some p =>
        obtain ⟨s, q'⟩ := p
        rw [hg] at h
        have h' : (match runQueue q' ops with
          | none => none
          | some (qf, outs) => some (qf, s :: outs)) = some (qf, outs) := h
        obtain ⟨hinv', hchain⟩ := queue_get_spec q s q' hq hg
        cases hrun : runQueue q' ops with
        | none => rw [hrun] at h'; simp at h'
        | some pf =>
          obtain ⟨qf', outs'⟩ := pf
          rw [hrun] at h'
          simp only [Option.some.injEq, Prod.mk.injEq] at h'
          obtain ⟨h1, h2⟩ := h'
          subst h1; subst h2
          obtain ⟨hinv, heq⟩ := ih q' qf' outs' hinv' hrun
          refine ⟨hinv, ?_⟩
          rw [putsOf, hchain]
          simpa using heq

/-!  ## Filesystem and connection-input models

`handleFileRequest` observes the filesystem in exactly three ways:
`stat(file) == 0 && S_ISDIR` (here `isDir`), `fopen(file, "rb")` together
with the bytes `fread` then yields (here `contents`, `none` when `fopen`
fails), and—fork variant only—the output of the `ls -al` pipe in
`list_directory` (here `dirListing`). -/

structure FileSystem where
  isDir : String → Bool
  contents : String → Option String
  dirListing : String → String

/-- What a connection delivers to the per-connection code: the first
`fgets` result (`none` on EOF / read error) and the further lines available
to the header-skipping loop (each including its terminator, as `fgets`
returns them; end of list = EOF). -/
structure RequestInput where
  requestLine : Option String
  headerLines : List String

/-- Whether the header-skipping loop finds its terminating blank line
(`"\r\n"` or `"\n"`) before the connection runs dry. -/
def hasBlankLine : List String → Bool
  | [] => false
  | l :: ls => if l = "\r\n" || l = "\n" then true else hasBlankLine ls

/-- Path composition shared by both `handleFileRequest`s: `webRoot` ++
`requestURI`, then `"index.html"` appended when the result ends in `/`. -/
def composePath (webRoot requestURI : String) : String :=
  let file := webRoot ++ requestURI
  if file.data.getLast? = some '/' then file ++ "index.html" else file

/-!  ## The fork-per-connection variant (first half of the source file) -/

namespace Fork

/-- The `mmap`-shared `struct reqstat` counters (the semaphore is the
mutual-exclusion device and has no arithmetic content). -/
structure ReqStat where
  num_two : Int
  num_three : Int
  num_four : Int
  num_five : Int
  deriving DecidableEq, Repr

/-- `showstatistics`: status line with an empty reason phrase, blank line,
then the statistics HTML body rendered from the current counters. -/
def showstatistics (statusCode : Int) (area : ReqStat) : String :=
  "HTTP/1.0 " ++ toString statusCode ++ " " ++ "\r\n" ++ "\r\n" ++
    ("<html><body>\n" ++ "<h1>Request Statistics</h1>" ++
      "Number of 2XX : " ++ toString area.num_two ++ " \n" ++
      "<br>Number of 3XX : " ++ toString area.num_three ++ " \n" ++
      "<br>Number of 4XX : " ++ toString area.num_four ++ " \n" ++
      "<br>Number of 5XX : " ++ toString area.num_five ++ " \n" ++
      "<br>Sum : " ++
        toString (area.num_two + area.num_three + area.num_four + area.num_five) ++
      " \n" ++ "</body></html>\n")

/-- The counter update inside `sendStatusLine`: `startnum = statusCode/100`
(C `int` division truncates toward zero) selects the bucket. -/
def bump (area : ReqStat) (statusCode : Int) : ReqStat :=
  let startnum := Int.tdiv statusCode 100
  if startnum = 2 then { area with num_two := area.num_two + 1 }
  else if startnum = 3 then { area with num_three := area.num_three + 1 }
  else if startnum = 4 then { area with num_four := area.num_four + 1 }
  else if startnum = 5 then { area with num_five := area.num_five + 1 }
  else area

/-- Fork-variant `sendStatusLine`: bump the shared counter for the status
class, then send the status line, a blank line, and—for non-200—the minimal
HTML error body. -/
def sendStatusLine (statusCode : Int) (area : ReqStat) : ReqStat × String :=
  let reasonPhrase := getReasonPhrase statusCode
  let area := bump area statusCode
  let buf := "HTTP/1.0 " ++ toString statusCode ++ " " ++ reasonPhrase ++
    "\r\n" ++ "\r\n"
  let buf :=
    if statusCode ≠ 200 then
      buf ++ ("<html><body>\n" ++ "<h1>" ++ toString statusCode ++ " " ++
        reasonPhrase ++ "</h1>\n" ++ "</body></html>\n")
    else buf
  (area, buf)

/-- Fork-variant `handleFileRequest`.  Returns the updated shared counters,
the status code it decided on, and the bytes written to the client. -/
def handleFileRequest (webRoot requestURI : String) (fs : FileSystem)
    (area : ReqStat) : ReqStat × Int × String :=
  if requestURI = "/statistics" then
    let area := { area with num_two := area.num_two + 1 }
    (area, 200, showstatistics 200 area)
  else
    let file := composePath webRoot requestURI
    if fs.isDir file then
      let area := { area with num_two := area.num_two + 1 }
      (area, 200, fs.dirListing file)
    else
      match fs.contents file with
      | none =>
        let r := sendStatusLine 404 area
        (r.1, 404, r.2)
      | some body =>
        let r := sendStatusLine 200 area
        (r.1, 200, r.2 ++ body)

/-- The per-connection body of the fork variant's `main` (the child branch
after `fork()`): parse and validate the request line, skip headers, then
`handleFileRequest`.  Result: updated counters, final `statusCode`, and all
bytes written to the client socket. -/
def serve (webRoot : String) (fs : FileSystem) (area : ReqStat)
    (inp : RequestInput) : ReqStat × Int × String :=
  match inp.requestLine with
  | none => (area, 400, "")
  | some requestLine =>
    match tokenize requestLine with
    | [method, requestURI, httpVersion] =>
      if method ≠ "GET" then
        let r := sendStatusLine 501 area
        (r.1, 501, r.2)
      else if httpVersion ≠ "HTTP/1.0" ∧ httpVersion ≠ "HTTP/1.1" then
        let r := sendStatusLine 501 area
        (r.1, 501, r.2)
      else if requestURI.data.head? ≠ some '/' then
        let r := sendStatusLine 400 area
        (r.1, 400, r.2)
      else if 3 ≤ requestURI.data.length ∧
          (endsWithList "/..".data requestURI.data = true ∨
            hasSubList "/../".data requestURI.data = true) then
        let r := sendStatusLine 400 area
        (r.1, 400, r.2)
      else if hasBlankLine inp.headerLines then
        handleFileRequest webRoot requestURI fs area
      else
        (area, 400, "")
    | _ =>
      let r := sendStatusLine 501 area
      (r.1, 501, r.2)

/-- Whether the lifecycle reaches any code path that writes a response
(everything except the two `goto loop_end` paths taken when `fgets` returns
`NULL`: EOF on the request line, or EOF before the blank line ending the
headers). -/
def responded (inp : RequestInput) : Bool :=
  match inp.requestLine with
  | none => false
  | some requestLine =>
    match tokenize requestLine with
    | [method, requestURI, httpVersion] =>
      if method ≠ "GET" then true
      else if httpVersion ≠ "HTTP/1.0" ∧ httpVersion ≠ "HTTP/1.1" then true
      else if requestURI.data.head? ≠ some '/' then true
      else if 3 ≤ requestURI.data.length ∧
          (endsWithList "/..".data requestURI.data = true ∨
            hasSubList "/../".data requestURI.data = true) then true
      else hasBlankLine inp.headerLines
    | _ => true

/-- A sequence of request lifecycles against the shared counters (children
of successive `accept`s; the semaphore serialises every counter access, so
any concurrent execution is some sequential order of the increments). -/
def run (webRoot : String) (fs : FileSystem) :
    ReqStat → List RequestInput → ReqStat × List Int
  | area, [] => (area, [])
  | area, inp :: inps =>
    let r := serve webRoot fs area inp
    let rest := run webRoot fs r.1 inps
    (rest.1, r.2.1 :: rest.2)

/-- The fork variant's per-request log line
(`"%s (%d) \"%s %s %s\" %d %s\n"` on `stderr`): peer address from
`inet_ntoa`, the child's pid in parentheses, the quoted request-line tokens,
final status and reason. -/
def logLine (ip : String) (pid : Int) (method uri ver : String)
    (statusCode : Int) : String :=
  ip ++ " (" ++ toString pid ++ ") " ++ "\"" ++ method ++ " " ++ uri ++ " " ++
    ver ++ "\" " ++ toString statusCode ++ " " ++ getReasonPhrase statusCode ++
    "\n"

end Fork

/-!  ## The thread-pool variant (second half of the source file) -/

namespace Thr

/-- Thread-variant `sendStatusLine`: same bytes as the fork variant's, with
no counters to update. -/
def sendStatusLine (statusCode : Int) : String :=
  let reasonPhrase := getReasonPhrase statusCode
  let buf := "HTTP/1.0 " ++ toString statusCode ++ " " ++ reasonPhrase ++
    "\r\n" ++ "\r\n"
  if statusCode ≠ 200 then
    buf ++ ("<html><body>\n" ++ "<h1>" ++ toString statusCode ++ " " ++
      reasonPhrase ++ "</h1>\n" ++ "</body></html>\n")
  else buf

/-- Thread-variant `handleFileRequest`: no statistics resource; a directory
is refused with 403 instead of being listed. -/
def handleFileRequest (webRoot requestURI : String) (fs : FileSystem) :
    Int × String :=
  let file := composePath webRoot requestURI
  if fs.isDir file then
    (403, sendStatusLine 403)
  else
    match fs.contents file with
    | none => (404, sendStatusLine 404)
    | some body => (200, sendStatusLine 200 ++ body)

/-- One iteration of `thr_worker`'s loop after `queue_get` hands it a
socket: identical request-line parsing and validation to the fork variant,
then the thread-variant `handleFileRequest`. -/
def serve (webRoot : String) (fs : FileSystem) (inp : RequestInput) :
    Int × String :=
  match inp.requestLine with
  | none => (400, "")
  | some requestLine =>
    match tokenize requestLine with
    | [method, requestURI, httpVersion] =>
      if method ≠ "GET" then (501, sendStatusLine 501)
      else if httpVersion ≠ "HTTP/1.0" ∧ httpVersion ≠ "HTTP/1.1" then
        (501, sendStatusLine 501)
      else if requestURI.data.head? ≠ some '/' then (400, sendStatusLine 400)
      else if 3 ≤ requestURI.data.length ∧
          (endsWithList "/..".data requestURI.data = true ∨
            hasSubList "/../".data requestURI.data = true) then
        (400, sendStatusLine 400)
      else if hasBlankLine inp.headerLines then
        handleFileRequest webRoot requestURI fs
      else (400, "")
    | _ => (501, sendStatusLine 501)

/-- The thread variant's per-request log line
(`"%s \"%s %s %s\" %d %s\n"` on `stderr`); its first field is the address
`getsockname` reports for the client socket. -/
def logLine (ip : String) (method uri ver : String) (statusCode : Int) :
    String :=
  ip ++ " " ++ "\"" ++ method ++ " " ++ uri ++ " " ++ ver ++ "\" " ++
    toString statusCode ++ " " ++ getReasonPhrase statusCode ++ "\n"

end Thr

/-- Modelled from the spec: the log-line format the spec prescribes for every
completed request, `<peer-ip> "<method> <uri> <version>" <status> <reason>`. -/
def specLogLine (peer : String) (method uri ver : String) (statusCode : Int) :
    String :=
  peer ++ " " ++ "\"" ++ method ++ " " ++ uri ++ " " ++ ver ++ "\" " ++
    toString statusCode ++ " " ++ getReasonPhrase statusCode ++ "\n"

/-- A document root with nothing in it: no path is a directory, none can be
opened. -/
def emptyFs : FileSystem :=
  { isDir := fun _ => false, contents := fun _ => none, dirListing := fun _ => "" }

/-!  # Claims -/

/-- C7: for every sequence of `queue_put`/`queue_get` operations on the
connection queue (starting from `queue_init`, with every `queue_get`
eventually served), the sockets returned by the `queue_get`s are exactly the
first `outs.length` sockets supplied to `queue_put`s, in order (the Nth get
returns the Nth put), and counting multiplicity every pushed socket is
either returned by exactly one get or still sits in the queue — no
duplication, no loss. -/
theorem queue_fifo_c7 (ops : List QOp) (qf : CQueue) (outs : List Int)
    (h : runQueue queue_init ops = some (qf, outs)) :
    outs ++ qf.chain = putsOf ops ∧
    outs = (putsOf ops).take outs.length ∧
    ∀ s : Int, outs.count s + qf.chain.count s = (putsOf ops).count s := by
  obtain ⟨_, heq⟩ := runQueue_spec ops queue_init qf outs queueInv_init h
  have heq' : outs ++ qf.chain = putsOf ops := by simpa [queue_init] using heq
  refine ⟨heq', ?_, ?_⟩
  · rw [← heq', List.take_left]
  · intro s
    rw [← heq', List.count_append]

theorem queue_fifo_c7_witness :
    ([3] : List Int) ++ (CQueue.mk [5] false 1).chain =
        putsOf [QOp.put 3, QOp.put 5, QOp.get] ∧
      ([3] : List Int) =
        (putsOf [QOp.put 3, QOp.put 5, QOp.get]).take ([3] : List Int).length ∧
      ∀ s : Int, ([3] : List Int).count s + (CQueue.mk [5] false 1).chain.count s =
        (putsOf [QOp.put 3, QOp.put 5, QOp.get]).count s :=
  queue_fifo_c7 [QOp.put 3, QOp.put 5, QOp.get] (CQueue.mk [5] false 1) [3] rfl

/-- C8: the structural invariant `length == 0 ⟺ (first == nil ∧ last == nil)`
holds after `queue_init` and is preserved by every `queue_put` and every
(completed) `queue_get`; moreover `queueInv` additionally records that the
chain reachable from `first` has exactly `length` nodes (and, in this model,
the chain always ends at the node `last` points to when `last` is not nil). -/
theorem queue_invariant_c8 :
    queueInv queue_init
  ∧ (∀ q s, queueInv q → queueInv (queue_put q s))
  ∧ (∀ q s q', queueInv q → queue_get q = some (s, q') → queueInv q')
  ∧ (∀ q, queueInv q → (q.length = 0 ↔ (q.chain = [] ∧ q.lastNil = true))) := by
  refine ⟨queueInv_init, queueInv_put,
    fun q s q' h hg => (queue_get_spec q s q' h hg).1, fun q h => ?_⟩
  obtain ⟨hlen, hnil⟩ := h
  constructor
  · intro h0
    have hc : q.chain = [] := List.length_eq_zero.mp (hlen.trans h0)
    exact ⟨hc, hnil.mpr hc⟩
  · rintro ⟨hc, _⟩
    rw [← hlen, hc]
    rfl

theorem queue_invariant_c8_witness :
    queueInv (queue_put queue_init 4) ∧
      (queue_init.length = 0 ↔ (queue_init.chain = [] ∧ queue_init.lastNil = true)) :=
  ⟨queue_invariant_c8.2.1 queue_init 4 queue_invariant_c8.1,
   queue_invariant_c8.2.2.2 queue_init queue_invariant_c8.1⟩

/-- C10: `getReasonPhrase` is total and pure: for every status code appearing
in the `HTTP_StatusCodes` table (before the terminating sentinel, i.e. with a
positive status) it returns that entry's reason phrase; for every other
integer — 0 and negatives included — it returns `"Unknown Status Code"`; and
it always returns a real (non-`NULL`, here nonempty) string. -/
theorem getReasonPhrase_total_c10 (code : Int) :
    (∀ r, 0 < code → (code, r) ∈ HTTP_StatusCodes → getReasonPhrase code = r)
  ∧ ((∀ r, (code, r) ∈ HTTP_StatusCodes → code ≤ 0) →
      getReasonPhrase code = "Unknown Status Code")
  ∧ getReasonPhrase code ≠ "" := by
  refine ⟨?_, ?_, ?_⟩
  · intro r hpos hmem
    simp only [HTTP_StatusCodes, List.mem_cons, List.not_mem_nil, or_false,
      Prod.mk.injEq] at hmem
    rcases hmem with ⟨h1, h2⟩ | ⟨h1, h2⟩ | ⟨h1, h2⟩ | ⟨h1, h2⟩ | ⟨h1, h2⟩ |
      ⟨h1, h2⟩ | ⟨h1, h2⟩ | ⟨h1, h2⟩ | ⟨h1, h2⟩ | ⟨h1, h2⟩ | ⟨h1, h2⟩ |
      ⟨h1, h2⟩ | ⟨h1, h2⟩ | ⟨h1, h2⟩ | ⟨h1, h2⟩ | ⟨h1, h2⟩ <;>
      subst h1 <;> first
        | exact absurd hpos (by decide)
        | (subst h2; rfl)
  · intro h
    rw [getReasonPhrase, getRPAux_eq_find]
    have hnone : (HTTP_StatusCodes.takeWhile fun e => decide (0 < e.1)).find?
        (fun e => decide (e.1 = code)) = none := by
      rw [List.find?_eq_none]
      intro x hx
      have hpx : 0 < x.1 := by
        have := List.mem_takeWhile_imp hx
        simpa using this
      have hxl : x ∈ HTTP_StatusCodes := mem_of_takeWhile _ _ x hx
      simp only [decide_eq_true_eq]
      intro hxc
      have : code ≤ 0 := h x.2 (by rw [← hxc]; exact hxl)
      omega
    rw [hnone]
    rfl
  · rw [getReasonPhrase, getRPAux_eq_find]
    cases hf : (HTTP_StatusCodes.takeWhile fun e => decide (0 < e.1)).find?
        (fun e => decide (e.1 = code)) with
    | none => simp
    | some e =>
      have hmem : e ∈ HTTP_StatusCodes.takeWhile fun x => decide (0 < x.1) :=
        List.mem_of_find?_eq_some hf
      have hpos : 0 < e.1 := by
        have := List.mem_takeWhile_imp hmem
        simpa using this
      have hel : e ∈ HTTP_StatusCodes := mem_of_takeWhile _ _ e hmem
      simp only [HTTP_StatusCodes, List.mem_cons, List.not_mem_nil, or_false] at hel
      rcases hel with h | h | h | h | h | h | h | h | h | h | h | h | h | h | h | h <;>
        subst h <;> simp_all

theorem getReasonPhrase_total_c10_witness :
    getReasonPhrase 404 = "Not Found" ∧
      getReasonPhrase 7 = "Unknown Status Code" ∧
      getReasonPhrase 0 = "Unknown Status Code" :=
  ⟨(getReasonPhrase_total_c10 404).1 "Not Found" (by decide) (by decide),
   (getReasonPhrase_total_c10 7).2.1
     (fun r hr => absurd hr (by simp [HTTP_StatusCodes])),
   (getReasonPhrase_total_c10 0).2.1 (fun r hr => le_refl 0)⟩

theorem string_ext {a b : String} (h : a.data = b.data) : a = b :=
  congrArg String.mk h

theorem data_append (a b : String) : (a ++ b).data = a.data ++ b.data := rfl

/-- C9 (as stated, refuted): the fork variant's log line is NOT of the
spec's shape `<peer-ip> "<method> <uri> <version>" <status> <reason>` — at a
concrete request it differs from that shape because the child's pid is
interposed. -/
theorem log_format_c9_counterexample :
    Fork.logLine "1.2.3.4" 7 "GET" "/" "HTTP/1.0" 200 ≠
      specLogLine "1.2.3.4" "GET" "/" "HTTP/1.0" 200 := by
  decide

/-- C9 (amended): the thread-pool variant's log line has exactly the claimed
format `<ip> "<method> <uri> <version>" <status> <reason>` (its `<ip>` is the
address `getsockname` reports for the connection); the fork variant emits the
same fields but inserts the handling child's pid, in parentheses, between the
peer address and the quoted request line. -/
theorem log_format_c9 (ip : String) (pid : Int) (method uri ver : String)
    (statusCode : Int) :
    Thr.logLine ip method uri ver statusCode =
      specLogLine ip method uri ver statusCode ∧
    Fork.logLine ip pid method uri ver statusCode =
      specLogLine (ip ++ " (" ++ toString pid ++ ")") method uri ver
        statusCode := by
  refine ⟨rfl, string_ext ?_⟩
  simp only [Fork.logLine, specLogLine, data_append]
  simp [show (" (" : String).data = [' ', '('] from rfl,
    show (") " : String).data = [')', ' '] from rfl,
    show ((")" : String)).data = [')'] from rfl,
    show (("\"" : String)).data = ['"'] from rfl,
    show ((" " : String)).data = [' '] from rfl,
    show (("\" " : String)).data = ['"', ' '] from rfl,
    show (("\n" : String)).data = ['\n'] from rfl]

/-- C4 (as stated, refuted): on a connection that hits EOF before a request
line is read, neither variant emits any bytes — in particular no 400 status
line — even though the final status is 400. -/
theorem eof_respond_c4_counterexample :
    (Fork.serve "" emptyFs ⟨0, 0, 0, 0⟩ ⟨none, []⟩).2 = (400, "") ∧
    Thr.serve "" emptyFs ⟨none, []⟩ = (400, "") :=
  ⟨rfl, rfl⟩

/-- C4 (amended): for every connection whose request-line read fails (EOF or
read error), both variants set status 400 and jump straight to `loop_end`
(log and close): the Respond step is skipped entirely, no status line and no
error body are written to the connection, and the fork variant's counters are
left untouched. -/
theorem eof_respond_c4 (webRoot : String) (fs : FileSystem) (area : Fork.ReqStat)
    (hdrs : List String) :
    Fork.serve webRoot fs area ⟨none, hdrs⟩ = (area, 400, "") ∧
    Thr.serve webRoot fs ⟨none, hdrs⟩ = (400, "") :=
  ⟨rfl, rfl⟩

/-- C2 (as stated, refuted): with counters (2xx,3xx,4xx,5xx) = (3,0,1,0),
`GET /statistics HTTP/1.0` does answer 200, but its body does NOT contain
`Number of 2XX : 3`: `handleFileRequest` increments `num_two` for the
statistics hit itself before `showstatistics` renders the counters. -/
theorem statistics_c2_counterexample :
    (Fork.serve "" emptyFs ⟨3, 0, 1, 0⟩
        ⟨some "GET /statistics HTTP/1.0\r\n", ["\r\n"]⟩).2.1 = 200 ∧
    hasSubList "Number of 2XX : 3".data
      (Fork.serve "" emptyFs ⟨3, 0, 1, 0⟩
        ⟨some "GET /statistics HTTP/1.0\r\n", ["\r\n"]⟩).2.2.data = false := by
  constructor
  · rfl
  · decide

/-- C2 (amended): with 3 prior 2xx and 1 prior 4xx responses recorded,
handling `GET /statistics HTTP/1.0\r\n\r\n` produces status 200 and a body
that reports the statistics hit itself as a fourth 2xx event: it contains
`Number of 2XX : 4` and `Number of 4XX : 1`. -/
theorem statistics_c2 :
    (Fork.serve "" emptyFs ⟨3, 0, 1, 0⟩
        ⟨some "GET /statistics HTTP/1.0\r\n", ["\r\n"]⟩).2.1 = 200 ∧
    hasSubList "Number of 2XX : 4".data
      (Fork.serve "" emptyFs ⟨3, 0, 1, 0⟩
        ⟨some "GET /statistics HTTP/1.0\r\n", ["\r\n"]⟩).2.2.data = true ∧
    hasSubList "Number of 4XX : 1".data
      (Fork.serve "" emptyFs ⟨3, 0, 1, 0⟩
        ⟨some "GET /statistics HTTP/1.0\r\n", ["\r\n"]⟩).2.2.data = true := by
  refine ⟨rfl, ?_, ?_⟩ <;> decide

/-- C5: a well-formed `GET /missing.html HTTP/1.0` request whose resolved
path is not a directory and cannot be opened for reading (as with an empty
document root) is answered, in both variants, with exactly the bytes
`HTTP/1.0 404 Not Found\r\n\r\n<html><body>\n<h1>404 Not Found</h1>\n</body></html>\n`
and nothing else. -/
theorem missing_404_c5 (webRoot : String) (fs : FileSystem) (area : Fork.ReqStat)
    (hdir : fs.isDir (webRoot ++ "/missing.html") = false)
    (hopen : fs.contents (webRoot ++ "/missing.html") = none) :
    Thr.serve webRoot fs ⟨some "GET /missing.html HTTP/1.0\r\n", ["\r\n"]⟩ =
      (404,
        "HTTP/1.0 404 Not Found\r\n\r\n<html><body>\n<h1>404 Not Found</h1>\n</body></html>\n") ∧
    (Fork.serve webRoot fs area
        ⟨some "GET /missing.html HTTP/1.0\r\n", ["\r\n"]⟩).2 =
      (404,
        "HTTP/1.0 404 Not Found\r\n\r\n<html><body>\n<h1>404 Not Found</h1>\n</body></html>\n") := by
  have hpath : composePath webRoot "/missing.html" = webRoot ++ "/missing.html" := by
    unfold composePath
    have hl : (webRoot ++ "/missing.html").data.getLast? = some 'l' := by
      rw [data_append, List.getLast?_append_of_ne_nil _ (by decide)]
      rfl
    simp [hl]
  constructor
  · have hserve : Thr.serve webRoot fs
        ⟨some "GET /missing.html HTTP/1.0\r\n", ["\r\n"]⟩ =
        Thr.handleFileRequest webRoot "/missing.html" fs := rfl
    rw [hserve]
    simp only [Thr.handleFileRequest, hpath, hdir, hopen]
    decide
  · have hserve : (Fork.serve webRoot fs area
        ⟨some "GET /missing.html HTTP/1.0\r\n", ["\r\n"]⟩) =
        Fork.handleFileRequest webRoot "/missing.html" fs area := rfl
    rw [hserve]
    simp only [Fork.handleFileRequest, hpath, hdir, hopen]
    simp only [show (("/missing.html" : String) = "/statistics") = False by simp]
    simp only [Bool.false_eq_true, if_false, ite_false]
    rfl

theorem missing_404_c5_witness :
    Thr.serve "/web" emptyFs ⟨some "GET /missing.html HTTP/1.0\r\n", ["\r\n"]⟩ =
      (404,
        "HTTP/1.0 404 Not Found\r\n\r\n<html><body>\n<h1>404 Not Found</h1>\n</body></html>\n") ∧
    (Fork.serve "/web" emptyFs ⟨0, 0, 0, 0⟩
        ⟨some "GET /missing.html HTTP/1.0\r\n", ["\r\n"]⟩).2 =
      (404,
        "HTTP/1.0 404 Not Found\r\n\r\n<html><body>\n<h1>404 Not Found</h1>\n</body></html>\n") :=
  missing_404_c5 "/web" emptyFs ⟨0, 0, 0, 0⟩ rfl rfl

/-- C6: every request whose request line does not tokenize into exactly 3
whitespace-separated tokens, or whose method is not exactly `GET`, or whose
version is neither `HTTP/1.0` nor `HTTP/1.1`, gets final status 501 and the
501 response bytes, in both variants. -/
theorem not_implemented_c6 (webRoot : String) (fs : FileSystem)
    (area : Fork.ReqStat) (rl : String) (hdrs : List String)
    (h : ∀ m u v, tokenize rl = [m, u, v] →
      m ≠ "GET" ∨ (v ≠ "HTTP/1.0" ∧ v ≠ "HTTP/1.1")) :
    (Fork.serve webRoot fs area ⟨some rl, hdrs⟩).2 =
      (501,
        "HTTP/1.0 501 Not Implemented\r\n\r\n<html><body>\n<h1>501 Not Implemented</h1>\n</body></html>\n") ∧
    Thr.serve webRoot fs ⟨some rl, hdrs⟩ =
      (501,
        "HTTP/1.0 501 Not Implemented\r\n\r\n<html><body>\n<h1>501 Not Implemented</h1>\n</body></html>\n") := by
  rcases htok : tokenize rl with _ | ⟨m, _ | ⟨u, _ | ⟨v, _ | ⟨w, tl⟩⟩⟩⟩
  · exact ⟨by simp only [Fork.serve, htok]; rfl, by simp only [Thr.serve, htok]; rfl⟩
  · exact ⟨by simp only [Fork.serve, htok]; rfl, by simp only [Thr.serve, htok]; rfl⟩
  · exact ⟨by simp only [Fork.serve, htok]; rfl, by simp only [Thr.serve, htok]; rfl⟩
  · rcases h m u v htok with hm | ⟨hv0, hv1⟩
    · exact ⟨by simp only [Fork.serve, htok]; rw [if_pos hm]; rfl,
        by simp only [Thr.serve, htok]; rw [if_pos hm]; rfl⟩
    · by_cases hm : m ≠ "GET"
      · exact ⟨by simp only [Fork.serve, htok]; rw [if_pos hm]; rfl,
          by simp only [Thr.serve, htok]; rw [if_pos hm]; rfl⟩
      · refine ⟨?_, ?_⟩
        · simp only [Fork.serve, htok]
          rw [if_neg hm, if_pos ⟨hv0, hv1⟩]
          rfl
        · simp only [Thr.serve, htok]
          rw [if_neg hm, if_pos ⟨hv0, hv1⟩]
          rfl
  · exact ⟨by simp only [Fork.serve, htok]; rfl, by simp only [Thr.serve, htok]; rfl⟩

theorem not_implemented_c6_witness :
    (Fork.serve "" emptyFs ⟨0, 0, 0, 0⟩ ⟨some "POST /a HTTP/1.0\r\n", ["\r\n"]⟩).2 =
      (501,
        "HTTP/1.0 501 Not Implemented\r\n\r\n<html><body>\n<h1>501 Not Implemented</h1>\n</body></html>\n") ∧
    Thr.serve "" emptyFs ⟨some "POST /a HTTP/1.0\r\n", ["\r\n"]⟩ =
      (501,
        "HTTP/1.0 501 Not Implemented\r\n\r\n<html><body>\n<h1>501 Not Implemented</h1>\n</body></html>\n") :=
  not_implemented_c6 "" emptyFs ⟨0, 0, 0, 0⟩ "POST /a HTTP/1.0\r\n" ["\r\n"]
    (fun m u v hmuv => by
      have hm : m = "POST" := by
        have : tokenize "POST /a HTTP/1.0\r\n" = ["POST", "/a", "HTTP/1.0"] := rfl
        rw [this] at hmuv
        exact (List.cons.injEq _ _ _ _ ▸ hmuv).1.symm ▸ rfl
      exact Or.inl (by rw [hm]; decide))

/-- C1 (as stated, refuted): a request whose URI contains `/../` is not
always answered 400 — the method and version checks come first, so
`POST /../x HTTP/1.0` (URI containing `/../`) is answered 501 in both
variants. -/
theorem traversal_c1_counterexample :
    hasSubList "/../".data "/../x".data = true ∧
    (Fork.serve "" emptyFs ⟨0, 0, 0, 0⟩
        ⟨some "POST /../x HTTP/1.0\r\n", ["\r\n"]⟩).2.1 ≠ 400 ∧
    (Thr.serve "" emptyFs ⟨some "POST /../x HTTP/1.0\r\n", ["\r\n"]⟩).1 ≠ 400 := by
  refine ⟨rfl, ?_, ?_⟩ <;> decide

/-- C1 (amended): for every request whose request line tokenizes as a `GET`
with a supported HTTP version and whose URI contains `/../` or ends with
`/..`, both variants assign final status 400 and send the 400 response,
regardless of the filesystem (in particular regardless of whether the target
exists under the document root) and of the counters. -/
theorem traversal_c1 (webRoot : String) (fs : FileSystem) (area : Fork.ReqStat)
    (rl : String) (hdrs : List String) (u v : String)
    (htok : tokenize rl = ["GET", u, v])
    (hv : v = "HTTP/1.0" ∨ v = "HTTP/1.1")
    (hbad : endsWithList "/..".data u.data = true ∨
      hasSubList "/../".data u.data = true) :
    (Fork.serve webRoot fs area ⟨some rl, hdrs⟩).2 =
      (400,
        "HTTP/1.0 400 Bad Request\r\n\r\n<html><body>\n<h1>400 Bad Request</h1>\n</body></html>\n") ∧
    Thr.serve webRoot fs ⟨some rl, hdrs⟩ =
      (400,
        "HTTP/1.0 400 Bad Request\r\n\r\n<html><body>\n<h1>400 Bad Request</h1>\n</body></html>\n") := by
  have hlen : 3 ≤ u.data.length := by
    rcases hbad with hb | hb
    · have h3 := endsWithList_length_le "/..".data u.data hb
      have e3 : ("/.." : String).data.length = 3 := rfl
      omega
    · have h4 := hasSubList_length_le "/../".data u.data hb
      have e4 : ("/../" : String).data.length = 4 := rfl
      omega
  have hver : ¬ (v ≠ "HTTP/1.0" ∧ v ≠ "HTTP/1.1") := by
    rcases hv with h | h <;> subst h <;> simp
  have hget : ¬ (("GET" : String) ≠ "GET") := by simp
  constructor
  · simp only [Fork.serve, htok]
    rw [if_neg hget, if_neg hver]
    by_cases hhead : u.data.head? ≠ some '/'
    · rw [if_pos hhead]
      rfl
    · rw [if_neg hhead, if_pos ⟨hlen, hbad⟩]
      rfl
  · simp only [Thr.serve, htok]
    rw [if_neg hget, if_neg hver]
    by_cases hhead : u.data.head? ≠ some '/'
    · rw [if_pos hhead]
      rfl
    · rw [if_neg hhead, if_pos ⟨hlen, hbad⟩]
      rfl

theorem traversal_c1_witness :
    (Fork.serve "" emptyFs ⟨0, 0, 0, 0⟩ ⟨some "GET /a/../b HTTP/1.0\r\n", ["\r\n"]⟩).2 =
      (400,
        "HTTP/1.0 400 Bad Request\r\n\r\n<html><body>\n<h1>400 Bad Request</h1>\n</body></html>\n") ∧
    Thr.serve "" emptyFs ⟨some "GET /a/../b HTTP/1.0\r\n", ["\r\n"]⟩ =
      (400,
        "HTTP/1.0 400 Bad Request\r\n\r\n<html><body>\n<h1>400 Bad Request</h1>\n</body></html>\n") :=
  traversal_c1 "" emptyFs ⟨0, 0, 0, 0⟩ "GET /a/../b HTTP/1.0\r\n" ["\r\n"]
    "/a/../b" "HTTP/1.0" rfl (Or.inl rfl) (Or.inr (by decide))

/-- The counter for one status class, selected by leading digit. -/
def Fork.bucket (d : Int) (a : Fork.ReqStat) : Int :=
  if d = 2 then a.num_two
  else if d = 3 then a.num_three
  else if d = 4 then a.num_four
  else if d = 5 then a.num_five
  else 0

theorem Fork.bump_bucket (a : Fork.ReqStat) (c d : Int)
    (hd : d = 2 ∨ d = 3 ∨ d = 4 ∨ d = 5) :
    Fork.bucket d (Fork.bump a c) =
      Fork.bucket d a + (if Int.tdiv c 100 = d then 1 else 0) := by
  rcases hd with rfl | rfl | rfl | rfl <;>
    simp only [Fork.bump, Fork.bucket] <;> split_ifs <;> simp_all

theorem Fork.bump_total (a : Fork.ReqStat) (c : Int)
    (hc : Int.tdiv c 100 = 2 ∨ Int.tdiv c 100 = 3 ∨ Int.tdiv c 100 = 4 ∨
      Int.tdiv c 100 = 5) :
    (Fork.bump a c).num_two + (Fork.bump a c).num_three +
      (Fork.bump a c).num_four + (Fork.bump a c).num_five =
      a.num_two + a.num_three + a.num_four + a.num_five + 1 := by
  rcases hc with h | h | h | h <;> simp only [Fork.bump, h] <;> split_ifs <;>
    simp_all <;> omega

theorem Fork.handleFileRequest_step (webRoot uri : String) (fs : FileSystem)
    (area : Fork.ReqStat) :
    (Fork.handleFileRequest webRoot uri fs area).1 =
      Fork.bump area (Fork.handleFileRequest webRoot uri fs area).2.1 ∧
    ((Fork.handleFileRequest webRoot uri fs area).2.1 = 200 ∨
      (Fork.handleFileRequest webRoot uri fs area).2.1 = 404) := by
  simp only [Fork.handleFileRequest]
  by_cases hstat : uri = "/statistics"
  · rw [if_pos hstat]
    exact ⟨rfl, Or.inl rfl⟩
  · rw [if_neg hstat]
    by_cases hdir : fs.isDir (composePath webRoot uri) = true
    · rw [if_pos hdir]
      exact ⟨rfl, Or.inl rfl⟩
    · rw [if_neg hdir]
      cases hc : fs.contents (composePath webRoot uri) with
      | none => exact ⟨rfl, Or.inr rfl⟩
      | some b => exact ⟨rfl, Or.inl rfl⟩

theorem Fork.serve_step (webRoot : String) (fs : FileSystem)
    (area : Fork.ReqStat) (inp : RequestInput) :
    (Fork.serve webRoot fs area inp).1 =
      (if Fork.responded inp = true then
        Fork.bump area (Fork.serve webRoot fs area inp).2.1
      else area) ∧
    ((Fork.serve webRoot fs area inp).2.1 = 200 ∨
      (Fork.serve webRoot fs area inp).2.1 = 400 ∨
      (Fork.serve webRoot fs area inp).2.1 = 404 ∨
      (Fork.serve webRoot fs area inp).2.1 = 501) := by
  cases hreq : inp.requestLine with
  | none =>
    simp only [Fork.serve, Fork.responded, hreq]
    exact ⟨rfl, by simp⟩
  | some rl =>
    rcases htok : tokenize rl with _ | ⟨m, _ | ⟨u, _ | ⟨v, _ | ⟨w, tl⟩⟩⟩⟩ <;>
      simp only [Fork.serve, Fork.responded, hreq, htok]
    · exact ⟨rfl, by simp⟩
    · exact ⟨rfl, by simp⟩
    · exact ⟨rfl, by simp⟩
    · by_cases h1 : m ≠ "GET"
      · rw [if_pos h1, if_pos h1]
        exact ⟨rfl, by simp⟩
      · rw [if_neg h1, if_neg h1]
        by_cases h2 : v ≠ "HTTP/1.0" ∧ v ≠ "HTTP/1.1"
        · rw [if_pos h2, if_pos h2]
          exact ⟨rfl, by simp⟩
        · rw [if_neg h2, if_neg h2]
          by_cases h3 : u.data.head? ≠ some '/'
          · rw [if_pos h3, if_pos h3]
            exact ⟨rfl, by simp⟩
          · rw [if_neg h3, if_neg h3]
            by_cases h4 : 3 ≤ u.data.length ∧
              (endsWithList "/..".data u.data = true ∨
                hasSubList "/../".data u.data = true)
            · rw [if_pos h4, if_pos h4]
              exact ⟨rfl, by simp⟩
            · rw [if_neg h4, if_neg h4]
              by_cases h5 : hasBlankLine inp.headerLines = true
              · rw [if_pos h5, h5]
                obtain ⟨ha, hc⟩ := Fork.handleFileRequest_step webRoot u fs area
                refine ⟨?_, ?_⟩
                · rw [ha]
                  rfl
                · rcases hc with hc | hc
                  · exact Or.inl hc
                  · exact Or.inr (Or.inr (Or.inl hc))
              · rw [if_neg h5]
                have h5' : hasBlankLine inp.headerLines = false := by
                  simpa using h5
                rw [h5']
                exact ⟨rfl, by simp⟩
    · exact ⟨rfl, by simp⟩

theorem Fork.run_length (webRoot : String) (fs : FileSystem) :
    ∀ (inputs : List RequestInput) (area : Fork.ReqStat),
      (Fork.run webRoot fs area inputs).2.length = inputs.length := by
  intro inputs
  induction inputs with
  | nil => intro area; rfl
  | cons inp inps ih =>
    intro area
    simp only [Fork.run, List.length_cons]
    rw [ih]

theorem Fork.run_bucket (webRoot : String) (fs : FileSystem) (d : Int)
    (hd : d = 2 ∨ d = 3 ∨ d = 4 ∨ d = 5) :
    ∀ (inputs : List RequestInput) (area : Fork.ReqStat),
      Fork.bucket d (Fork.run webRoot fs area inputs).1 =
        Fork.bucket d area +
          (((inputs.zip (Fork.run webRoot fs area inputs).2).filter
            (fun p => Fork.responded p.1 &&
              decide (Int.tdiv p.2 100 = d))).length : Int) := by
  intro inputs
  induction inputs with
  | nil => intro area; simp [Fork.run]
  | cons inp inps ih =>
    intro area
    obtain ⟨hstep, _⟩ := Fork.serve_step webRoot fs area inp
    simp only [Fork.run, List.zip_cons_cons, List.filter_cons]
    rw [ih]
    by_cases hr : Fork.responded inp = true
    · rw [hstep, if_pos hr]
      rw [Fork.bump_bucket area _ d hd]
      by_cases hdig : Int.tdiv (Fork.serve webRoot fs area inp).2.1 100 = d
      · simp [hr, hdig]
        omega
      · simp [hr, hdig]
    · rw [hstep, if_neg hr]
      have hr' : Fork.responded inp = false := by simpa using hr
      simp [hr']

theorem Fork.run_total (webRoot : String) (fs : FileSystem) :
    ∀ (inputs : List RequestInput) (area : Fork.ReqStat),
      (Fork.run webRoot fs area inputs).1.num_two +
        (Fork.run webRoot fs area inputs).1.num_three +
        (Fork.run webRoot fs area inputs).1.num_four +
        (Fork.run webRoot fs area inputs).1.num_five =
        area.num_two + area.num_three + area.num_four + area.num_five +
          (((inputs.zip (Fork.run webRoot fs area inputs).2).filter
            (fun p => Fork.responded p.1)).length : Int) := by
  intro inputs
  induction inputs with
  | nil => intro area; simp [Fork.run]
  | cons inp inps ih =>
    intro area
    obtain ⟨hstep, hcode⟩ := Fork.serve_step webRoot fs area inp
    simp only [Fork.run, List.zip_cons_cons, List.filter_cons]
    rw [ih]
    by_cases hr : Fork.responded inp = true
    · rw [hstep, if_pos hr]
      have hdiv : Int.tdiv (Fork.serve webRoot fs area inp).2.1 100 = 2 ∨
          Int.tdiv (Fork.serve webRoot fs area inp).2.1 100 = 3 ∨
          Int.tdiv (Fork.serve webRoot fs area inp).2.1 100 = 4 ∨
          Int.tdiv (Fork.serve webRoot fs area inp).2.1 100 = 5 := by
        rcases hcode with h | h | h | h <;> rw [h] <;> decide
      rw [Fork.bump_total area _ hdiv]
      simp [hr]
      omega
    · rw [hstep, if_neg hr]
      have hr' : Fork.responded inp = false := by simpa using hr
      simp [hr']

/-- C3 (as stated, refuted): a lifecycle that dies at EOF on the request line
completes with final status 400 yet increments no counter: after the single
lifecycle below, N = 1 and c_1 = 400, but all four buckets (and their sum)
are 0, not 1. -/
theorem stats_invariant_c3_counterexample :
    (Fork.run "" emptyFs ⟨0, 0, 0, 0⟩ [⟨none, []⟩]).2 = [400] ∧
    (Fork.run "" emptyFs ⟨0, 0, 0, 0⟩ [⟨none, []⟩]).1.num_four = 0 ∧
    (Fork.run "" emptyFs ⟨0, 0, 0, 0⟩ [⟨none, []⟩]).1.num_two +
      (Fork.run "" emptyFs ⟨0, 0, 0, 0⟩ [⟨none, []⟩]).1.num_three +
      (Fork.run "" emptyFs ⟨0, 0, 0, 0⟩ [⟨none, []⟩]).1.num_four +
      (Fork.run "" emptyFs ⟨0, 0, 0, 0⟩ [⟨none, []⟩]).1.num_five = 0 :=
  ⟨rfl, rfl, rfl⟩

/-- C3 (amended): after every sequence of N request lifecycles (starting from
zeroed counters), the codes list has length N, each bucket equals the number
of lifecycles that actually sent a response and whose status code has the
matching hundreds digit, and the four buckets sum to the number of
response-sending lifecycles.  Lifecycles cut short by EOF (on the request
line or inside the headers) record final status 400 but increment no bucket;
every other lifecycle increments exactly one. -/
theorem stats_invariant_c3 (webRoot : String) (fs : FileSystem)
    (inputs : List RequestInput) (d : Int)
    (hd : d = 2 ∨ d = 3 ∨ d = 4 ∨ d = 5) :
    (Fork.run webRoot fs ⟨0, 0, 0, 0⟩ inputs).2.length = inputs.length ∧
    Fork.bucket d (Fork.run webRoot fs ⟨0, 0, 0, 0⟩ inputs).1 =
      (((inputs.zip (Fork.run webRoot fs ⟨0, 0, 0, 0⟩ inputs).2).filter
        (fun p => Fork.responded p.1 &&
          decide (Int.tdiv p.2 100 = d))).length : Int) ∧
    (Fork.run webRoot fs ⟨0, 0, 0, 0⟩ inputs).1.num_two +
      (Fork.run webRoot fs ⟨0, 0, 0, 0⟩ inputs).1.num_three +
      (Fork.run webRoot fs ⟨0, 0, 0, 0⟩ inputs).1.num_four +
      (Fork.run webRoot fs ⟨0, 0, 0, 0⟩ inputs).1.num_five =
      (((inputs.zip (Fork.run webRoot fs ⟨0, 0, 0, 0⟩ inputs).2).filter
        (fun p => Fork.responded p.1)).length : Int) := by
  refine ⟨Fork.run_length webRoot fs inputs _, ?_, ?_⟩
  · have h := Fork.run_bucket webRoot fs d hd inputs ⟨0, 0, 0, 0⟩
    have h0 : Fork.bucket d ⟨0, 0, 0, 0⟩ = 0 := by
      simp [Fork.bucket]
    rw [h, h0, zero_add]
  · have h := Fork.run_total webRoot fs inputs ⟨0, 0, 0, 0⟩
    simpa using h

theorem stats_invariant_c3_witness :
    (Fork.run "" emptyFs ⟨0, 0, 0, 0⟩
        [⟨some "GET /x HTTP/1.0\r\n", ["\r\n"]⟩, ⟨none, []⟩]).2.length =
      ([⟨some "GET /x HTTP/1.0\r\n", ["\r\n"]⟩, ⟨none, []⟩] :
        List RequestInput).length ∧
    Fork.bucket 4 (Fork.run "" emptyFs ⟨0, 0, 0, 0⟩
        [⟨some "GET /x HTTP/1.0\r\n", ["\r\n"]⟩, ⟨none, []⟩]).1 =
      (((([⟨some "GET /x HTTP/1.0\r\n", ["\r\n"]⟩, ⟨none, []⟩] :
          List RequestInput).zip
        (Fork.run "" emptyFs ⟨0, 0, 0, 0⟩
          [⟨some "GET /x HTTP/1.0\r\n", ["\r\n"]⟩, ⟨none, []⟩]).2).filter
        (fun p => Fork.responded p.1 &&
          decide (Int.tdiv p.2 100 = 4))).length : Int) ∧
    (Fork.run "" emptyFs ⟨0, 0, 0, 0⟩
        [⟨some "GET /x HTTP/1.0\r\n", ["\r\n"]⟩, ⟨none, []⟩]).1.num_two +
      (Fork.run "" emptyFs ⟨0, 0, 0, 0⟩
        [⟨some "GET /x HTTP/1.0\r\n", ["\r\n"]⟩, ⟨none, []⟩]).1.num_three +
      (Fork.run "" emptyFs ⟨0, 0, 0, 0⟩
        [⟨some "GET /x HTTP/1.0\r\n", ["\r\n"]⟩, ⟨none, []⟩]).1.num_four +
      (Fork.run "" emptyFs ⟨0, 0, 0, 0⟩
        [⟨some "GET /x HTTP/1.0\r\n", ["\r\n"]⟩, ⟨none, []⟩]).1.num_five =
      (((([⟨some "GET /x HTTP/1.0\r\n", ["\r\n"]⟩, ⟨none, []⟩] :
          List RequestInput).zip
        (Fork.run "" emptyFs ⟨0, 0, 0, 0⟩
          [⟨some "GET /x HTTP/1.0\r\n", ["\r\n"]⟩, ⟨none, []⟩]).2).filter
        (fun p => Fork.responded p.1)).length : Int) :=
  stats_invariant_c3 "" emptyFs
    [⟨some "GET /x HTTP/1.0\r\n", ["\r\n"]⟩, ⟨none, []⟩] 4
    (Or.inr (Or.inr (Or.inl rfl)))

end MultiSrv
